import Mathlib

/-!
Verification of the IDAES distillation tray model
(`idaes/unit_models/distillation/tray.py`).

The development shallowly embeds the tray unit model:

* `mkPhaseSplitMember` embeds the per-member classification loop of
  `TrayData._make_phase_split`, which routes each declared port member of the
  mixed outlet state block to a direct reference, a synthesized expression,
  an error, or nothing at all.
* `addPorts` embeds `TrayData._add_ports`: the inlet ports and the four
  possible outgoing ports, with the split fractions passed to
  `_make_phase_split` exactly as the source does.
* `buildInletStates` embeds the inlet-state-block loop of `TrayData.build`,
  including Python list-indexing semantics for `inlet_list[i]`.
* `material_mixing_equations` embeds `TrayData._add_material_balance`.
* `initTrace` embeds `TrayData.initialize` as the sequence of
  observable actions it performs (state-block initializations, constraint
  de/activations, variable fix/unfix, solver calls, log messages).

Python string membership (`"flow" in k`) is embedded by `containsSub`,
`str.split('_')` by `splitU`, and `'_'.join` by `joinU`.
-/

/-- `leadsWith pat l` : `pat` is an initial segment of `l` (over characters). -/
def leadsWith : List Char → List Char → Bool
  | [], _ => true
  | _ :: _, [] => false
  | a :: pa, b :: lb => a == b && leadsWith pa lb

/-- `containsSubL pat l` : `pat` occurs contiguously somewhere inside `l`. -/
def containsSubL (pat : List Char) : List Char → Bool
  | [] => leadsWith pat []
  | c :: cs => leadsWith pat (c :: cs) || containsSubL pat cs

/-- Embedding of Python's substring test `pat in s`. -/
def containsSub (s pat : String) : Bool :=
  containsSubL pat.toList s.toList

/-- A declared port member of the outlet state block: its name and whether the
underlying variable is indexed (`member_list[k].is_indexed()`). -/
structure Member where
  name : String
  indexed : Bool
  deriving DecidableEq, Repr

/-- Errors the embedded Python code can raise. -/
inductive PyError where
  /-- Python `TypeError` (e.g. indexing a list with a `str`). -/
  | typeError
  /-- Python `IndexError` (sequence index out of range). -/
  | indexError
  /-- `NameError` (or a stale binding) for `local_name` in the indexed-flow
  branch when the member name does not match the `X_Y_comp` pattern. -/
  | nameError
  /-- IDAES `PropertyPackageError`. -/
  | propertyPackageError
  /-- `Exception("Liquid side draw split fraction not fixed.")`. -/
  | unfixedLiqSF
  /-- `Exception("Vapor side draw split fraction not fixed.")`. -/
  | unfixedVapSF
  /-- `Exception("Unrecognized enthalpy state variable. ...")`. -/
  | unrecognizedEnth
  deriving DecidableEq, Repr

/-- What `_make_phase_split` attaches to a port for one member. -/
inductive PortEntry where
  /-- `port.add(Reference(var), k)`: a direct shared reference to the outlet
  variable named `n` (`indexed` records whether `[...]` was used); carries no
  phase selection and no split-fraction factor. -/
  | ref (n : String) (indexed : Bool)
  /-- Fraction expression: per `(t, i)`, `properties_out[t].component(s)[phase, i]`
  (no split-fraction scaling). -/
  | exprFrac (s phase : String)
  /-- Unindexed flow expression: per `t`,
  `properties_out[t].component(s)[phase] * sf`. -/
  | exprFlowTotal (s phase : String) (sf : ℝ)
  /-- Component-indexed flow expression: per `(t, i)`,
  `properties_out[t].component(s)[phase, i] * sf`. -/
  | exprFlowComp (s phase : String) (sf : ℝ)
  /-- Enthalpy expression: per `t`, `properties_out[t].component(s)[phase]`
  (no split-fraction scaling). -/
  | exprEnth (s phase : String)

/-- Outcome of the resolver loop body for one member. -/
inductive ResolveResult where
  /-- something was added to the port -/
  | added (e : PortEntry)
  /-- the loop body fell through every branch: nothing added, no error -/
  | skipped
  /-- a Python exception was raised -/
  | error (e : PyError)

/-- Splitting accumulator: embeds Python `s.split('_')` over characters. -/
def splitUAux : List Char → List Char → List String
  | [], acc => [String.mk acc.reverse]
  | c :: cs, acc =>
      if c == '_' then String.mk acc.reverse :: splitUAux cs []
      else splitUAux cs (c :: acc)

/-- Embedding of Python `s.split('_')` (`str_split` in the source). -/
def splitU (s : String) : List String :=
  splitUAux s.toList []

/-- Embedding of Python `'_'.join(parts)`. -/
def joinU : List String → String
  | [] => ""
  | [s] => s
  | s :: ss => s ++ "_" ++ joinU ss

/-- `local_name` for a total (not by-phase) mole/mass fraction:
`'_'.join(str_split[0:2]) + "_phase" + "_" + str_split[2]`.
Returns `none` when `str_split[2]` would raise `IndexError`. -/
def fracSibling (name : String) : Option String :=
  let ss := splitU name
  if 2 < ss.length then
    some (joinU (ss.take 2) ++ "_phase" ++ "_" ++ ss.getD 2 "")
  else
    none

/-- `local_name` for a component-indexed flow member:
only assigned when the name has exactly three `_`-separated segments, the last
being `"comp"`; then `str_split[0] + "_" + str_split[1] + "_phase_" + "comp"`.
`none` models that `local_name` is never (re)bound in this iteration. -/
def flowCompSibling (name : String) : Option String :=
  let ss := splitU name
  if ss.length == 3 && ss.getLastD "" == "comp" then
    some (ss.getD 0 "" ++ "_" ++ ss.getD 1 "" ++ "_phase_" ++ "comp")
  else
    none

/-- Embedding of one iteration of the member loop of
`TrayData._make_phase_split`, for member `k`, requested `phase` tag and
split-fraction factor `sf` (the source passes a `Var`, `1 - Var` or the
literal `1`; here its real value). Branch structure and branch order follow
the source exactly. -/
def mkPhaseSplitMember (k : Member) (phase : String) (sf : ℝ) : ResolveResult :=
  if !containsSub k.name "flow" && !containsSub k.name "frac"
      && !containsSub k.name "enth" then
    ResolveResult.added (PortEntry.ref k.name k.indexed)
  else if containsSub k.name "frac"
      && (containsSub k.name "mole" || containsSub k.name "mass") then
    if !containsSub k.name "phase" then
      match fracSibling k.name with
      | some local_name => ResolveResult.added (PortEntry.exprFrac local_name phase)
      | none => ResolveResult.error PyError.indexError
    else
      ResolveResult.added (PortEntry.ref k.name k.indexed)
  else if containsSub k.name "flow" then
    if !containsSub k.name "phase" then
      if !k.indexed then
        ResolveResult.added
          (PortEntry.exprFlowTotal (k.name ++ "_phase") phase sf)
      else
        match flowCompSibling k.name with
        | some local_name =>
            ResolveResult.added (PortEntry.exprFlowComp local_name phase sf)
        | none => ResolveResult.error PyError.nameError
    else
      ResolveResult.skipped
  else if containsSub k.name "enth" then
    if !containsSub k.name "phase" then
      if !k.indexed then
        ResolveResult.added (PortEntry.exprEnth (k.name ++ "_phase") phase)
      else
        ResolveResult.error PyError.propertyPackageError
    else if containsSub k.name "phase" then
      ResolveResult.added (PortEntry.ref k.name k.indexed)
    else
      ResolveResult.error PyError.unrecognizedEnth
  else
    ResolveResult.skipped

/-- `_make_phase_split` over the whole member list: one outcome per member. -/
def makePhaseSplit (members : List Member) (phase : String) (sf : ℝ) :
    List (String × ResolveResult) :=
  members.map (fun k => (k.name, mkPhaseSplitMember k phase sf))

/-- The index a port expression uses on the underlying outlet variable besides
the phase: the component index `i` for indexed members, nothing for scalars. -/
def memIdx (k : Member) (i : String) : String :=
  if k.indexed then i else ""

/-- The phase-indexed sibling variable a flow member resolves to:
`k + "_phase"` for an unindexed flow, the `X_Y_phase_comp` substitution for a
component-indexed flow (when its name fits the pattern). -/
def flowSibling (k : Member) : Option String :=
  if k.indexed then flowCompSibling k.name else some (k.name ++ "_phase")

/-- The port entry the flow branch builds for member `k` with sibling `s`. -/
def flowEntryOf (k : Member) (s phase : String) (sf : ℝ) : PortEntry :=
  if k.indexed then PortEntry.exprFlowComp s phase sf
  else PortEntry.exprFlowTotal s phase sf

/-- Value of a port entry. `v t n ph i` is the value of
`properties_out[t].component(n)[ph, i]` (empty strings for absent indices). -/
def evalEntry (v : Nat → String → String → String → ℝ) (t : Nat) (i : String) :
    PortEntry → ℝ
  | PortEntry.ref n indexed => if indexed then v t n "" i else v t n "" ""
  | PortEntry.exprFrac s ph => v t s ph i
  | PortEntry.exprFlowTotal s ph sf => v t s ph "" * sf
  | PortEntry.exprFlowComp s ph sf => v t s ph i * sf
  | PortEntry.exprEnth s ph => v t s ph ""

/-- The ports `_add_ports` builds (inlet port names; outgoing port contents). -/
structure PortsResult where
  inletPortNames : List String
  liqOut : List (String × ResolveResult)
  liqSideDraw : Option (List (String × ResolveResult))
  vapOut : List (String × ResolveResult)
  vapSideDraw : Option (List (String × ResolveResult))

/-- Embedding of `TrayData._add_ports`. `fL` and `fV` are the values of the
split-fraction variables `liq_side_sf` and `vap_side_sf`; the factors passed
to `_make_phase_split` (`fL`, `1 - fL`, the literal `1`, and likewise for
vapor) follow the source. -/
def addPorts (isFeed hasLSD hasVSD : Bool) (members : List Member)
    (fL fV : ℝ) : PortsResult :=
  { inletPortNames := (if isFeed then ["feed"] else []) ++ ["liq_in", "vap_in"]
    liqOut :=
      if hasLSD then makePhaseSplit members "Liq" (1 - fL)
      else makePhaseSplit members "Liq" 1
    liqSideDraw :=
      if hasLSD then some (makePhaseSplit members "Liq" fL) else none
    vapOut :=
      if hasVSD then makePhaseSplit members "Vap" (1 - fV)
      else makePhaseSplit members "Vap" 1
    vapSideDraw :=
      if hasVSD then some (makePhaseSplit members "Vap" fV) else none }

/-- A Python sequence index: an `int` or (erroneously) a `str`. -/
inductive PyIdx where
  | pint (n : Int)
  | pstr (s : String)

/-- Embedding of Python list subscription `xs[idx]` for a list of strings.
A `str` index raises `TypeError`; an out-of-range `int` raises `IndexError`
(negative-index wraparound is omitted: the embedded code never uses it). -/
def pyListGet (xs : List String) : PyIdx → Except PyError String
  | PyIdx.pint n =>
      if h : 0 ≤ n ∧ n.toNat < xs.length then Except.ok (xs.get ⟨n.toNat, h.2⟩)
      else Except.error PyError.indexError
  | PyIdx.pstr _ => Except.error PyError.typeError

/-- `inlet_list` as chosen at the top of `TrayData.build`. -/
def inletList (isFeed : Bool) : List String :=
  if isFeed then ["feed", "liq", "vap"] else ["liq", "vap"]

/-- The inlet-state loop of `TrayData.build`: for each role `i` in
`inlet_list`, the doc string evaluates `inlet_list[i]` (with `i` the string
element itself) before the state block is constructed and attached. Returns
the names of the state blocks attached before any exception, and the
exception if one was raised. -/
def buildInletLoop (inlet_list : List String) :
    List String → List String × Option PyError
  | [] => ([], none)
  | i :: rest =>
      match pyListGet inlet_list (PyIdx.pstr i) with
      | Except.error e => ([], some e)
      | Except.ok _doc =>
          let (tl, e) := buildInletLoop inlet_list rest
          (("properties_in_" ++ i) :: tl, e)

/-- Embedding of the inlet-state-block part of `TrayData.build`. -/
def buildInletStates (isFeed : Bool) : List String × Option PyError :=
  buildInletLoop (inletList isFeed) (inletList isFeed)

/-- Solver termination condition (the code only distinguishes `optimal`). -/
inductive TermCond where
  | optimal
  | infeasible
  | maxIterations
  | other
  deriving DecidableEq, Repr

/-- Observable actions of `TrayData.initialize`. -/
inductive InitEvent where
  | initStateBlock (name : String)
  | deactivateCon (name : String)
  | activateCon (name : String)
  | fixVar (name : String)
  | unfixVar (name : String)
  | solverSolve (callIdx : Nat)
  | logInfo (msg : String)
  deriving DecidableEq, Repr

/-- Embedding of `TrayData.initialize` as its sequence of observable actions.
`liqFixed`/`vapFixed` are `liq_side_sf.fixed`/`vap_side_sf.fixed`; `res n`
is the termination condition returned by the `n`-th `solver.solve` call.
The trailing log message re-reads `solver_output` from the second solve:
after `pressure_drop_equation` is activated and the pressure unfixed, the
source performs no further solve. -/
def initTrace (isFeed hasLSD hasVSD liqFixed vapFixed : Bool)
    (res : Nat → TermCond) : List InitEvent × Option PyError :=
  if hasLSD && !liqFixed then ([], some PyError.unfixedLiqSF)
  else if hasVSD && !vapFixed then ([], some PyError.unfixedVapSF)
  else
    ((if isFeed then [InitEvent.initStateBlock "properties_in_feed"]
      else []) ++
     [InitEvent.initStateBlock "properties_in_liq",
      InitEvent.initStateBlock "properties_in_vap",
      InitEvent.initStateBlock "properties_out",
      InitEvent.deactivateCon "enthalpy_mixing_equations",
      InitEvent.fixVar "temperature",
      InitEvent.deactivateCon "pressure_drop_equation",
      InitEvent.fixVar "pressure",
      InitEvent.solverSolve 0,
      InitEvent.logInfo (if res 0 = TermCond.optimal
        then "Mass balance solve successful."
        else "Mass balance solve failed."),
      InitEvent.activateCon "enthalpy_mixing_equations",
      InitEvent.unfixVar "temperature",
      InitEvent.solverSolve 1,
      InitEvent.logInfo (if res 1 = TermCond.optimal
        then "Mass/Energy balance solve successful."
        else "Mass/Energy balance solve failed."),
      InitEvent.activateCon "pressure_drop_equation",
      InitEvent.unfixVar "pressure",
      InitEvent.logInfo (if res 1 = TermCond.optimal
        then "Tray initialisation complete."
        else "Mass/Energy/Pressure balance solve failed.")],
     none)

/-- Number of external solver invocations in a trace. -/
def countSolverCalls (tr : List InitEvent) : Nat :=
  tr.countP (fun e => match e with
    | InitEvent.solverSolve _ => true
    | _ => false)

/-- Index sets and flow-term oracles for the material balance:
`xFlow t p j` is `properties_in_x[t].get_material_flow_terms(p, j)`
(resp. `properties_out` for `outFlow`). -/
structure BalanceEnv where
  times : List Nat
  components : List String
  phases : List String
  feedFlow : Nat → String → String → ℝ
  liqFlow : Nat → String → String → ℝ
  vapFlow : Nat → String → String → ℝ
  outFlow : Nat → String → String → ℝ

/-- One material-balance constraint: the equality `0 = residual`. -/
structure MatCon where
  t : Nat
  j : String
  residual : ℝ

/-- Embedding of the `material_mixing_equations` constraint rule of
`TrayData._add_material_balance`: one constraint per `(t, j)` in
`time × component_list`, with the body the source's phase sum. -/
def material_mixing_equations (isFeed : Bool) (env : BalanceEnv) :
    List MatCon :=
  env.times.flatMap (fun t => env.components.map (fun j =>
    { t := t, j := j,
      residual :=
        if isFeed then
          (env.phases.map (fun p =>
            env.feedFlow t p j + env.liqFlow t p j + env.vapFlow t p j
              - env.outFlow t p j)).sum
        else
          (env.phases.map (fun p =>
            env.liqFlow t p j + env.vapFlow t p j
              - env.outFlow t p j)).sum }))

/-- Stated from the spec's words: the phase-summed inlet flow terms
(feed + liquid + vapor on a feed tray, else liquid + vapor). -/
def inletFlowSum (isFeed : Bool) (env : BalanceEnv) (t : Nat) (j : String) :
    ℝ :=
  if isFeed then
    (env.phases.map (fun p => env.feedFlow t p j)).sum
      + (env.phases.map (fun p => env.liqFlow t p j)).sum
      + (env.phases.map (fun p => env.vapFlow t p j)).sum
  else
    (env.phases.map (fun p => env.liqFlow t p j)).sum
      + (env.phases.map (fun p => env.vapFlow t p j)).sum

/-- Stated from the spec's words: the outlet's phase-summed flow term. -/
def outletFlowSum (env : BalanceEnv) (t : Nat) (j : String) : ℝ :=
  (env.phases.map (fun p => env.outFlow t p j)).sum

/-- A concrete single-time, single-component, two-phase balance environment
used to instantiate the material-balance theorem. -/
def envEx : BalanceEnv :=
  { times := [0]
    components := ["benzene"]
    phases := ["Liq", "Vap"]
    feedFlow := fun _ _ _ => 1
    liqFlow := fun _ _ _ => 2
    vapFlow := fun _ _ _ => 3
    outFlow := fun _ _ _ => 6 }

/-- Summing a three-term signed combination over a list distributes. -/
theorem sumMapAddSub {α : Type} (l : List α) (f g h : α → ℝ) :
    (l.map (fun p => f p + g p - h p)).sum
      = (l.map f).sum + (l.map g).sum - (l.map h).sum := by
  induction l with
  | nil => simp
  | cons a l ih =>
      simp only [List.map_cons, List.sum_cons, ih]
      ring

/-- Summing a four-term signed combination over a list distributes. -/
theorem sumMapAddAddSub {α : Type} (l : List α) (e f g h : α → ℝ) :
    (l.map (fun p => e p + f p + g p - h p)).sum
      = (l.map e).sum + (l.map f).sum + (l.map g).sum - (l.map h).sum := by
  induction l with
  | nil => simp
  | cons a l ih =>
      simp only [List.map_cons, List.sum_cons, ih]
      ring

/-- Length of a `flatMap` whose pieces all have the same length. -/
theorem flatMapConstLength {α β : Type} (ts : List α) (f : α → List β) (n : ℕ)
    (h : ∀ a, (f a).length = n) :
    (ts.flatMap f).length = ts.length * n := by
  induction ts with
  | nil => simp
  | cons a ts ih =>
      simp only [List.flatMap_cons, List.length_append, h, ih,
        List.length_cons]
      ring

/-- C2: for every configuration, `Tray.build` raises a `TypeError` before any
inlet state block is attached: the loop over the inlet role list evaluates
`inlet_list[i]` with `i` bound to a string element of the list, so indexing
the list with a string fails on the first iteration and build never
completes. -/
theorem buildRaisesTypeErrorBeforeAttach (isFeed : Bool) :
    buildInletStates isFeed = ([], some PyError.typeError) := by
  cases isFeed <;> rfl

/-- C7: if a liquid or vapor side draw is configured and its split-fraction
variable is not fixed, `initialize` raises immediately: no state-block
initialization, constraint de/activation, variable fixing or solver call is
performed (the event trace is empty). -/
theorem initFailsFastOnUnfixedSF (isFeed hasLSD hasVSD liqFixed vapFixed : Bool)
    (res : Nat → TermCond)
    (h : (hasLSD = true ∧ liqFixed = false)
       ∨ (hasVSD = true ∧ vapFixed = false)) :
    (initTrace isFeed hasLSD hasVSD liqFixed vapFixed res).1 = []
    ∧ (initTrace isFeed hasLSD hasVSD liqFixed vapFixed res).2.isSome = true := by
  rcases h with ⟨h1, h2⟩ | ⟨h1, h2⟩ <;> subst h1 <;> subst h2
  · simp [initTrace]
  · cases hasLSD <;> cases liqFixed <;> simp [initTrace]

theorem initFailsFastOnUnfixedSF_witness :
    ((true = true ∧ false = false) ∨ (false = true ∧ true = false))
    ∧ ((initTrace false true false false true (fun _ => TermCond.optimal)).1 = []
       ∧ (initTrace false true false false true
            (fun _ => TermCond.optimal)).2.isSome = true) :=
  ⟨Or.inl ⟨rfl, rfl⟩,
   initFailsFastOnUnfixedSF false true false false true _ (Or.inl ⟨rfl, rfl⟩)⟩

/-- C9: a port member whose name contains both "flow" and "phase" is silently
omitted from every port: the flow branch only handles non-phase-indexed
names and has no else branch, so the member produces neither a reference nor
an expression nor an error. -/
theorem phaseFlowMemberSilentlyOmitted (k : Member) (ph : String) (sf : ℝ)
    (hf : containsSub k.name "flow" = true)
    (hp : containsSub k.name "phase" = true)
    (hfr : containsSub k.name "frac" = false
      ∨ (containsSub k.name "mole" = false
          ∧ containsSub k.name "mass" = false)) :
    mkPhaseSplitMember k ph sf = ResolveResult.skipped := by
  rcases hfr with h | ⟨h1, h2⟩
  · simp [mkPhaseSplitMember, hf, hp, h]
  · simp [mkPhaseSplitMember, hf, hp, h1, h2]

theorem phaseFlowMemberSilentlyOmitted_witness :
    (containsSub "flow_mol_phase" "flow" = true
      ∧ containsSub "flow_mol_phase" "phase" = true
      ∧ containsSub "flow_mol_phase" "frac" = false)
    ∧ mkPhaseSplitMember ⟨"flow_mol_phase", true⟩ "Liq" 1
        = ResolveResult.skipped :=
  ⟨⟨rfl, rfl, rfl⟩,
   phaseFlowMemberSilentlyOmitted ⟨"flow_mol_phase", true⟩ "Liq" 1 rfl rfl
     (Or.inl rfl)⟩

/-- C10: resolving a total (non-phase-indexed) mole/mass fraction member whose
name has fewer than three underscore-separated segments (such as
"mole_frac") raises an `IndexError` at build time — the sibling-name
substitution accesses the third segment — instead of producing a port
expression or a contract-violation error. -/
theorem totalFracShortNameIndexError (k : Member) (ph : String) (sf : ℝ)
    (hfr : containsSub k.name "frac" = true)
    (hm : containsSub k.name "mole" = true ∨ containsSub k.name "mass" = true)
    (hp : containsSub k.name "phase" = false)
    (hlen : (splitU k.name).length < 3) :
    mkPhaseSplitMember k ph sf = ResolveResult.error PyError.indexError := by
  have hnot : ¬ (2 < (splitU k.name).length) := by omega
  rcases hm with h | h <;>
    simp [mkPhaseSplitMember, hfr, hp, h, fracSibling, hnot]

theorem totalFracShortNameIndexError_witness :
    (containsSub "mole_frac" "frac" = true
      ∧ containsSub "mole_frac" "mole" = true
      ∧ containsSub "mole_frac" "phase" = false
      ∧ (splitU "mole_frac").length < 3)
    ∧ mkPhaseSplitMember ⟨"mole_frac", true⟩ "Liq" 1
        = ResolveResult.error PyError.indexError :=
  ⟨⟨rfl, rfl, rfl, by decide⟩,
   totalFracShortNameIndexError ⟨"mole_frac", true⟩ "Liq" 1 rfl (Or.inl rfl)
     rfl (by decide)⟩

/-- C6: a member whose name contains "enth" but not "phase" raises a
`PropertyPackageError` during port resolution when it is indexed; when it is
unindexed the resolver emits a phase-selected expression over the
"_phase"-suffixed sibling, with no split-fraction scaling. -/
theorem enthTotalIndexedRaises (k : Member) (ph : String) (sf : ℝ)
    (he : containsSub k.name "enth" = true)
    (hp : containsSub k.name "phase" = false)
    (hf : containsSub k.name "flow" = false)
    (hfr : containsSub k.name "frac" = false) :
    (k.indexed = true →
      mkPhaseSplitMember k ph sf
        = ResolveResult.error PyError.propertyPackageError)
    ∧ (k.indexed = false →
      mkPhaseSplitMember k ph sf
        = ResolveResult.added (PortEntry.exprEnth (k.name ++ "_phase") ph)) := by
  constructor <;> intro hi <;> simp [mkPhaseSplitMember, he, hp, hf, hfr, hi]

theorem enthTotalIndexedRaises_witness :
    (containsSub "enth_mol" "enth" = true
      ∧ containsSub "enth_mol" "phase" = false
      ∧ containsSub "enth_mol" "flow" = false
      ∧ containsSub "enth_mol" "frac" = false)
    ∧ ((true = true →
          mkPhaseSplitMember ⟨"enth_mol", true⟩ "Liq" 1
            = ResolveResult.error PyError.propertyPackageError)
       ∧ (true = false →
          mkPhaseSplitMember ⟨"enth_mol", true⟩ "Liq" 1
            = ResolveResult.added
                (PortEntry.exprEnth ("enth_mol" ++ "_phase") "Liq"))) :=
  ⟨⟨rfl, rfl, rfl, rfl⟩,
   enthTotalIndexedRaises ⟨"enth_mol", true⟩ "Liq" 1 rfl rfl rfl rfl⟩

/-- C5: a member whose name contains none of "flow"/"frac"/"enth", a
phase-indexed mole/mass fraction member, and a phase-indexed enthalpy member
all resolve to a direct shared reference to the same outlet variable — no
phase selection, no split-fraction scaling — so the resolution is identical
for every port built from the outlet state, whatever the split fractions. -/
theorem nonSplitMembersShared (k : Member)
    (h : (containsSub k.name "flow" = false ∧ containsSub k.name "frac" = false
           ∧ containsSub k.name "enth" = false)
      ∨ (containsSub k.name "frac" = true
           ∧ (containsSub k.name "mole" = true
               ∨ containsSub k.name "mass" = true)
           ∧ containsSub k.name "phase" = true)
      ∨ (containsSub k.name "enth" = true ∧ containsSub k.name "phase" = true
           ∧ containsSub k.name "flow" = false)) :
    ∀ ph sf ph' sf',
      mkPhaseSplitMember k ph sf
        = ResolveResult.added (PortEntry.ref k.name k.indexed)
      ∧ mkPhaseSplitMember k ph sf = mkPhaseSplitMember k ph' sf' := by
  have key : ∀ (p : String) (s : ℝ),
      mkPhaseSplitMember k p s
        = ResolveResult.added (PortEntry.ref k.name k.indexed) := by
    intro p s
    rcases h with ⟨h1, h2, h3⟩ | ⟨h1, h2, h3⟩ | ⟨h1, h2, h3⟩
    · simp [mkPhaseSplitMember, h1, h2, h3]
    · rcases h2 with h2 | h2 <;> simp [mkPhaseSplitMember, h1, h2, h3]
    · cases hfr : containsSub k.name "frac" <;>
        cases hmo : containsSub k.name "mole" <;>
          cases hma : containsSub k.name "mass" <;>
            simp [mkPhaseSplitMember, h1, h2, h3, hfr, hmo, hma]
  intro ph sf ph' sf'
  exact ⟨key ph sf, (key ph sf).trans (key ph' sf').symm⟩

theorem nonSplitMembersShared_witness :
    ((containsSub "temperature" "flow" = false
       ∧ containsSub "temperature" "frac" = false
       ∧ containsSub "temperature" "enth" = false)
      ∨ (containsSub "temperature" "frac" = true
           ∧ (containsSub "temperature" "mole" = true
               ∨ containsSub "temperature" "mass" = true)
           ∧ containsSub "temperature" "phase" = true)
      ∨ (containsSub "temperature" "enth" = true
           ∧ containsSub "temperature" "phase" = true
           ∧ containsSub "temperature" "flow" = false))
    ∧ (mkPhaseSplitMember ⟨"temperature", false⟩ "Liq" (1 / 2)
         = ResolveResult.added (PortEntry.ref "temperature" false)
       ∧ mkPhaseSplitMember ⟨"temperature", false⟩ "Liq" (1 / 2)
         = mkPhaseSplitMember ⟨"temperature", false⟩ "Vap" 0) :=
  ⟨Or.inl ⟨rfl, rfl, rfl⟩,
   nonSplitMembersShared ⟨"temperature", false⟩ (Or.inl ⟨rfl, rfl, rfl⟩)
     "Liq" (1 / 2) "Vap" 0⟩

/-- C1 (divergence witness): for any configuration without side draws and any
solver behavior, `initialize` performs exactly two solver invocations, not
three; and the final log line — "Tray initialisation complete." or
"Mass/Energy/Pressure balance solve failed." — is chosen by the termination
condition of the second (mass+energy) solve, because after
`pressure_drop_equation` is re-activated and the outlet pressure unfixed the
source never calls the solver again. -/
theorem initOnlyTwoSolves (isFeed : Bool) (res : Nat → TermCond) :
    countSolverCalls (initTrace isFeed false false true true res).1 = 2
    ∧ (initTrace isFeed false false true true res).1.getLastD
        (InitEvent.solverSolve 99)
      = InitEvent.logInfo (if res 1 = TermCond.optimal
          then "Tray initialisation complete."
          else "Mass/Energy/Pressure balance solve failed.") := by
  cases isFeed <;> exact ⟨rfl, rfl⟩

/-- C8 (divergence witness): with `is_feed_tray` either `True` or `False`,
`build` stops with a `TypeError` before any inlet state block exists, so the
inlet ports are never added; `_add_ports` itself, had it been reached, would
have exposed exactly the inlet ports `feed`/`liq_in`/`vap_in` on a feed tray
and `liq_in`/`vap_in` otherwise. -/
theorem trayInletPortsNeverBuilt :
    buildInletStates true = ([], some PyError.typeError)
    ∧ buildInletStates false = ([], some PyError.typeError)
    ∧ (addPorts true false false [] 0 0).inletPortNames
        = ["feed", "liq_in", "vap_in"]
    ∧ (addPorts false false false [] 0 0).inletPortNames
        = ["liq_in", "vap_in"] :=
  ⟨rfl, rfl, rfl, rfl⟩

/-- C3: a flow-kind member (name contains "flow", not "phase") resolves, on
the side-draw port, to the phase-indexed flow sibling at the requested phase
times the side split fraction `f`; the matching main outlet carries
`(1 - f)` times the same phase flow; and with the side draw disabled the
main outlet carries the full phase flow (factor 1) — per time point, and per
component when the member is component-indexed. -/
theorem flowSplitFractions
    (isFeed hasLSD hasVSD : Bool) (members : List Member) (k : Member)
    (hk : k ∈ members)
    (hf : containsSub k.name "flow" = true)
    (hp : containsSub k.name "phase" = false)
    (hfr : containsSub k.name "frac" = false)
    (s : String) (hs : flowSibling k = some s)
    (f g sf : ℝ) (ph : String)
    (v : Nat → String → String → String → ℝ) (t : Nat) (i : String) :
    (addPorts isFeed true hasVSD members f g).liqSideDraw
        = some (makePhaseSplit members "Liq" f)
    ∧ (addPorts isFeed true hasVSD members f g).liqOut
        = makePhaseSplit members "Liq" (1 - f)
    ∧ (addPorts isFeed false hasVSD members f g).liqOut
        = makePhaseSplit members "Liq" 1
    ∧ (addPorts isFeed hasLSD true members f g).vapSideDraw
        = some (makePhaseSplit members "Vap" g)
    ∧ (addPorts isFeed hasLSD true members f g).vapOut
        = makePhaseSplit members "Vap" (1 - g)
    ∧ (addPorts isFeed hasLSD false members f g).vapOut
        = makePhaseSplit members "Vap" 1
    ∧ (k.name, ResolveResult.added (flowEntryOf k s ph sf))
        ∈ makePhaseSplit members ph sf
    ∧ evalEntry v t i (flowEntryOf k s ph sf) = v t s ph (memIdx k i) * sf
    ∧ evalEntry v t i (flowEntryOf k s ph 1) = v t s ph (memIdx k i) := by
  refine ⟨by simp [addPorts], by simp [addPorts], by simp [addPorts],
          by simp [addPorts], by simp [addPorts], by simp [addPorts],
          ?_, ?_, ?_⟩
  · have key : mkPhaseSplitMember k ph sf
        = ResolveResult.added (flowEntryOf k s ph sf) := by
      cases hki : k.indexed with
      | false =>
          have hs' : k.name ++ "_phase" = s := by
            simpa [flowSibling, hki] using hs
          simp [mkPhaseSplitMember, hf, hp, hfr, hki, flowEntryOf, hs']
      | true =>
          have hs' : flowCompSibling k.name = some s := by
            simpa [flowSibling, hki] using hs
          simp [mkPhaseSplitMember, hf, hp, hfr, hki, flowEntryOf, hs']
    exact List.mem_map.mpr ⟨k, hk, by rw [key]⟩
  · cases hki : k.indexed <;> simp [evalEntry, flowEntryOf, memIdx, hki]
  · cases hki : k.indexed <;> simp [evalEntry, flowEntryOf, memIdx, hki]

theorem flowSplitFractions_witness :
    (⟨"flow_mol", false⟩ ∈ ([⟨"flow_mol", false⟩] : List Member)
      ∧ containsSub "flow_mol" "flow" = true
      ∧ containsSub "flow_mol" "phase" = false
      ∧ containsSub "flow_mol" "frac" = false
      ∧ flowSibling ⟨"flow_mol", false⟩ = some "flow_mol_phase")
    ∧ ((addPorts false true false [⟨"flow_mol", false⟩] (1 / 2) (1 / 3)).liqSideDraw
          = some (makePhaseSplit [⟨"flow_mol", false⟩] "Liq" (1 / 2))
      ∧ (addPorts false true false [⟨"flow_mol", false⟩] (1 / 2) (1 / 3)).liqOut
          = makePhaseSplit [⟨"flow_mol", false⟩] "Liq" (1 - 1 / 2)
      ∧ (addPorts false false false [⟨"flow_mol", false⟩] (1 / 2) (1 / 3)).liqOut
          = makePhaseSplit [⟨"flow_mol", false⟩] "Liq" 1
      ∧ (addPorts false false true [⟨"flow_mol", false⟩] (1 / 2) (1 / 3)).vapSideDraw
          = some (makePhaseSplit [⟨"flow_mol", false⟩] "Vap" (1 / 3))
      ∧ (addPorts false false true [⟨"flow_mol", false⟩] (1 / 2) (1 / 3)).vapOut
          = makePhaseSplit [⟨"flow_mol", false⟩] "Vap" (1 - 1 / 3)
      ∧ (addPorts false false false [⟨"flow_mol", false⟩] (1 / 2) (1 / 3)).vapOut
          = makePhaseSplit [⟨"flow_mol", false⟩] "Vap" 1
      ∧ (("flow_mol", ResolveResult.added
            (flowEntryOf ⟨"flow_mol", false⟩ "flow_mol_phase" "Liq" (1 / 2)))
          ∈ makePhaseSplit [⟨"flow_mol", false⟩] "Liq" (1 / 2))
      ∧ evalEntry (fun _ _ _ _ => 2) 0 ""
            (flowEntryOf ⟨"flow_mol", false⟩ "flow_mol_phase" "Liq" (1 / 2))
          = (fun _ _ _ _ => (2 : ℝ)) 0 "flow_mol_phase" "Liq"
              (memIdx ⟨"flow_mol", false⟩ "") * (1 / 2)
      ∧ evalEntry (fun _ _ _ _ => 2) 0 ""
            (flowEntryOf ⟨"flow_mol", false⟩ "flow_mol_phase" "Liq" 1)
          = (fun _ _ _ _ => (2 : ℝ)) 0 "flow_mol_phase" "Liq"
              (memIdx ⟨"flow_mol", false⟩ "")) :=
  ⟨⟨by decide, rfl, rfl, rfl, rfl⟩,
   flowSplitFractions false false false [⟨"flow_mol", false⟩]
     ⟨"flow_mol", false⟩ (by decide) rfl rfl rfl "flow_mol_phase" rfl
     (1 / 2) (1 / 3) (1 / 2) "Liq" (fun _ _ _ _ => 2) 0 ""⟩

/-- C4: `material_mixing_equations` produces exactly one equality constraint
per (time point, component) pair — the key list is duplicate-free and
enumerates `times × components` — and each constraint equates zero with the
phase-summed inlet flow terms (feed + liquid + vapor on a feed tray, else
liquid + vapor) minus the outlet's phase-summed flow term. -/
theorem materialMixingEquationsStructure (isFeed : Bool) (env : BalanceEnv)
    (h1 : env.times.Nodup) (h2 : env.components.Nodup) :
    ((material_mixing_equations isFeed env).map (fun c => (c.t, c.j))).Nodup
    ∧ (material_mixing_equations isFeed env).length
        = env.times.length * env.components.length
    ∧ (∀ c ∈ material_mixing_equations isFeed env,
        c.t ∈ env.times ∧ c.j ∈ env.components
        ∧ c.residual
            = inletFlowSum isFeed env c.t c.j - outletFlowSum env c.t c.j)
    ∧ (∀ t ∈ env.times, ∀ j ∈ env.components,
        ∃ c ∈ material_mixing_equations isFeed env, c.t = t ∧ c.j = j) := by
  have hkeys : (material_mixing_equations isFeed env).map (fun c => (c.t, c.j))
      = env.times ×ˢ env.components := by
    simp only [material_mixing_equations, List.map_flatMap, List.map_map]
    rfl
  refine ⟨?_, ?_, ?_, ?_⟩
  · rw [hkeys]
    exact h1.product h2
  · rw [material_mixing_equations]
    exact flatMapConstLength _ _ _ (fun a => by simp)
  · intro c hc
    rcases List.mem_flatMap.mp hc with ⟨t, ht, hc2⟩
    rcases List.mem_map.mp hc2 with ⟨j, hj, hcj⟩
    subst hcj
    refine ⟨ht, hj, ?_⟩
    cases isFeed with
    | false =>
        simpa [inletFlowSum, outletFlowSum] using
          sumMapAddSub env.phases (fun p => env.liqFlow t p j)
            (fun p => env.vapFlow t p j) (fun p => env.outFlow t p j)
    | true =>
        simpa [inletFlowSum, outletFlowSum] using
          sumMapAddAddSub env.phases (fun p => env.feedFlow t p j)
            (fun p => env.liqFlow t p j) (fun p => env.vapFlow t p j)
            (fun p => env.outFlow t p j)
  · intro t ht j hj
    exact ⟨_, List.mem_flatMap.mpr ⟨t, ht, List.mem_map.mpr ⟨j, hj, rfl⟩⟩,
      rfl, rfl⟩

theorem materialMixingEquationsStructure_witness :
    (envEx.times.Nodup ∧ envEx.components.Nodup)
    ∧ (((material_mixing_equations true envEx).map (fun c => (c.t, c.j))).Nodup
       ∧ (material_mixing_equations true envEx).length
           = envEx.times.length * envEx.components.length
       ∧ (∀ c ∈ material_mixing_equations true envEx,
            c.t ∈ envEx.times ∧ c.j ∈ envEx.components
            ∧ c.residual = inletFlowSum true envEx c.t c.j
                - outletFlowSum envEx c.t c.j)
       ∧ (∀ t ∈ envEx.times, ∀ j ∈ envEx.components,
            ∃ c ∈ material_mixing_equations true envEx, c.t = t ∧ c.j = j)) :=
  ⟨⟨by decide, by decide⟩,
   materialMixingEquationsStructure true envEx (by decide) (by decide)⟩
